import Mathlib

/-!
# Verification of the `eprotoc` front-end and code generator

Shallow embedding of the `eprotoc` schema compiler (tokenizer, parser,
semantic analyzer, GenIR builder and emitter) together with proofs about
the behaviours described in the specification.

Conventions of the embedding:
* JavaScript strings are modelled as `List Char` / `String`; the source
  `codePointAt`-based cursor is modelled as a list cursor (all inputs in
  the theorems are in the basic plane, where the two coincide; the
  supplementary-plane column rule `+2` is kept via `Char.val`).
* `undefined` results are `Option`, thrown `TypeError`s / fatal
  `process.exit` calls are the error component of `Except`.
* JavaScript object identity (`===` on objects) is modelled by an
  allocation id (`oid`) drawn from a counter threaded through the
  analyzer, mirroring the fact that every resolution allocates fresh
  objects via `{ ...resolvedType }`.
* Loops of the original that do not structurally descend are given
  explicit fuel; every concrete run in the theorems below is supplied
  enough fuel, and fuel exhaustion is a distinguished error value.
-/

namespace Eproto

/-! ## Source positions (`tokenizer.ts`) -/

structure Position where
  line : Int
  character : Int
deriving DecidableEq, Repr

structure SrcRange where
  start : Position
  «end» : Position
deriving DecidableEq, Repr

structure DocumentItem where
  file : String
  range : SrcRange
deriving DecidableEq, Repr

/-- Token payload, the `TokenData` tagged union of `tokenizer.ts`. -/
inductive TokenData where
  | keyword (value : String)
  | symbol (value : String)
  | identifier (value : String)
  | stringLiteral (value : String)
  | numericLiteral (value : Int)
  | comment (value : String)
  | unknown (value : String)
  | eof
deriving DecidableEq, Repr

structure Token where
  file : String
  range : SrcRange
  data : TokenData
deriving DecidableEq, Repr

namespace Token

def isEOF (t : Token) : Bool :=
  match t.data with
  | .eof => true
  | _ => false

/-- The `value` property read as a string (string-valued token kinds). -/
def strValue (t : Token) : String :=
  match t.data with
  | .keyword v | .symbol v | .identifier v | .stringLiteral v
  | .comment v | .unknown v => v
  | .numericLiteral _ | .eof => ""

/-- The `value` property read as a number (numeric-literal tokens). -/
def numValue (t : Token) : Int :=
  match t.data with
  | .numericLiteral v => v
  | _ => 0

end Token

/-! ## Diagnostics

The analyzer and parser report diagnostics as `{ item, message }`
records pushed onto a `DiagnosticCollection`; an item is a
`DocumentItem` (file plus range). -/

structure ADiag where
  item : DocumentItem
  message : String
deriving DecidableEq, Repr

/-- `afterToken` of `diagnostic.ts`: collapse a range to its end. -/
def afterToken (item : DocumentItem) : DocumentItem :=
  { file := item.file
    range := { start := item.range.«end», «end» := item.range.«end» } }

/-! ## Tokenizer (`tokenizer.ts`) -/

def KEYWORDS : List String :=
  ["message", "enum", "service", "rpc", "stream", "returns", "optional",
   "package"]

def SYMBOLS : List String :=
  ["<", ">", "(", ")", ";", "\x7b", "\x7d", "=", ",", "."]

/-- One `Tokenizer.step`: advance the position over one code point. -/
def stepPos (c : Char) (pos : Position) : Position :=
  if c = '\n' then { line := pos.line + 1, character := 0 }
  else { pos with character := pos.character + (if c.val > 0xFFFF then 2 else 1) }

def isLetter (c : Char) : Bool :=
  ('A' ≤ c ∧ c ≤ 'Z') ∨ ('a' ≤ c ∧ c ≤ 'z')

def isDigit (c : Char) : Bool :=
  '0' ≤ c ∧ c ≤ '9'

def isWhitespaceChar (c : Char) : Bool :=
  c = '\n' ∨ c = '\t' ∨ c = ' '

/-- `Tokenizer.skipWhitespace`. -/
def skipWhitespace : List Char → Position → List Char × Position
  | [], pos => ([], pos)
  | c :: rest, pos =>
    if isWhitespaceChar c then skipWhitespace rest (stepPos c pos)
    else (c :: rest, pos)

/-- `Tokenizer.takeWord` (also `takeNumber`, with the digit predicate). -/
def takeWhileChars (p : Char → Bool) :
    List Char → Position → String → String × List Char × Position
  | [], pos, buf => (buf, [], pos)
  | c :: rest, pos, buf =>
    if p c then takeWhileChars p rest (stepPos c pos) (buf.push c)
    else (buf, c :: rest, pos)

/-- `Tokenizer.takeUntilQuote`.  The `escaping` flag is set by a `\`
without stepping (`continue`), so the very next iteration re-examines
the same backslash with the flag set; the flag therefore only ever
applies to the backslash itself.  Fuel covers the non-consuming
`continue` branch. -/
def takeUntilQuote (fuel : Nat) (escaping : Bool) :
    List Char → Position → String → String × List Char × Position
  | chars, pos, buf =>
    match fuel with
    | 0 => (buf, chars, pos)
    | fuel + 1 =>
      match chars with
      | [] => (buf, [], pos)
      | c :: rest =>
        if escaping then
          takeUntilQuote fuel false rest (stepPos c pos) (buf.push c)
        else if c = '"' then (buf, rest, stepPos c pos)
        else if c = '\\' then
          takeUntilQuote fuel true (c :: rest) pos buf
        else
          takeUntilQuote fuel false rest (stepPos c pos) (buf.push c)

/-- `Tokenizer.takeUntil(str)`: the match counter is never reset on a
mismatch, exactly as in the source. -/
def takeUntil (str : List Char) (matched : Nat) :
    List Char → Position → String → String × List Char × Position
  | [], pos, buf => (buf, [], pos)
  | c :: rest, pos, buf =>
    let matched' := if str.get? matched = some c then matched + 1 else matched
    let buf' := buf.push c
    let pos' := stepPos c pos
    if matched' = str.length then
      (⟨buf'.toList.take (buf'.toList.length - str.length)⟩, rest, pos')
    else
      takeUntil str matched' rest pos' buf'

/-- Build a `DocumentItem` for `saveAt`/`at`. -/
def mkItem (file : String) (startPos endPos : Position) : DocumentItem :=
  { file, range := { start := startPos, «end» := endPos } }

/-- The main scanning loop of `tokenize`, before the keyword/symbol
post-pass. -/
def tokenizeLoop (file : String) (fuel : Nat) :
    List Char → Position → List Token → List Token
  | chars, pos, acc =>
    match fuel with
    | 0 => acc.reverse
    | fuel + 1 =>
      match chars with
      | [] => acc.reverse
      | _ :: _ =>
        let (chars, pos) := skipWhitespace chars pos
        match chars with
        | [] => acc.reverse
        | c :: rest =>
          if c = '"' then
            let startPos := pos
            let pos := stepPos c pos
            let (value, chars', pos') :=
              takeUntilQuote (2 * rest.length + 2) false rest pos ""
            let tok : Token :=
              { file, range := { start := startPos, «end» := pos' },
                data := .stringLiteral value }
            tokenizeLoop file fuel chars' pos' (tok :: acc)
          else if isDigit c then
            let startPos := pos
            let (value, chars', pos') := takeWhileChars isDigit (c :: rest) pos ""
            let tok : Token :=
              { file, range := { start := startPos, «end» := pos' },
                data := .numericLiteral (value.toList.foldl
                  (fun n ch => n * 10 + (ch.val.toNat - '0'.val.toNat)) (0 : Int)) }
            tokenizeLoop file fuel chars' pos' (tok :: acc)
          else if c = '_' ∨ isLetter c then
            let startPos := pos
            let (value, chars', pos') :=
              takeWhileChars (fun ch => ch = '_' ∨ isLetter ch ∨ isDigit ch)
                (c :: rest) pos ""
            let tok : Token :=
              { file, range := { start := startPos, «end» := pos' },
                data := .identifier value }
            tokenizeLoop file fuel chars' pos' (tok :: acc)
          else if c = '/' ∧ rest.head? = some '/' then
            let startPos := pos
            let pos := stepPos '/' (stepPos '/' pos)
            let (value, chars', pos') := takeUntil ['\n'] 0 (rest.drop 1) pos ""
            let tok : Token :=
              { file, range := { start := startPos, «end» := pos' },
                data := .comment value }
            tokenizeLoop file fuel chars' pos' (tok :: acc)
          else if c = '/' ∧ rest.head? = some '*' then
            let startPos := pos
            let pos := stepPos '*' (stepPos '/' pos)
            let (value, chars', pos') := takeUntil ['*', '/'] 0 (rest.drop 1) pos ""
            let tok : Token :=
              { file, range := { start := startPos, «end» := pos' },
                data := .comment value }
            tokenizeLoop file fuel chars' pos' (tok :: acc)
          else
            let tok : Token :=
              { file, range := { start := pos, «end» := pos },
                data := .unknown c.toString }
            tokenizeLoop file fuel rest (stepPos c pos) (tok :: acc)

/-- The keyword/symbol promotion post-pass of `tokenize`, collecting the
"Uknown symbol" diagnostics (typo as in the source). -/
def promoteToken (t : Token) : Token × Option ADiag :=
  match t.data with
  | .identifier v =>
    if KEYWORDS.contains v then ({ t with data := .keyword v }, none)
    else (t, none)
  | .unknown v =>
    if SYMBOLS.contains v then ({ t with data := .symbol v }, none)
    else (t, some { item := { file := t.file, range := t.range },
                    message := "Uknown symbol \"" ++ v ++ "\"" })
  | _ => (t, none)

/-- `tokenize(file, source, diagnostics)`: returns the token list and
the diagnostics pushed while tokenizing. -/
def tokenize (file : String) (source : String) : List Token × List ADiag :=
  let chars := source.toList.filter (· ≠ '\r')
  let raw := tokenizeLoop file (chars.length + 1) chars ⟨0, 0⟩ []
  let promoted := raw.map promoteToken
  let tokens := promoted.map Prod.fst
  let diags := promoted.filterMap Prod.snd
  let endPos := chars.foldl (fun p c => stepPos c p) (⟨0, 0⟩ : Position)
  (tokens ++ [{ file, range := { start := endPos, «end» := endPos }, data := .eof }],
   diags)

/-! ## Parser (`parser.ts`)

The parser is embedded in a state monad over the token cursor; the two
fatal outcomes (`process.exit(1)` when stepping over `EOF`, and fuel
exhaustion of the embedding) are the error component. -/

def Token.toItem (t : Token) : DocumentItem :=
  { file := t.file, range := t.range }

/-- `tokenType` as the string the source compares against. -/
def Token.typeName (t : Token) : String :=
  match t.data with
  | .keyword _ => "keyword"
  | .symbol _ => "symbol"
  | .identifier _ => "identifier"
  | .stringLiteral _ => "string-literal"
  | .numericLiteral _ => "numeric-literal"
  | .comment _ => "comment"
  | .unknown _ => "unknown"
  | .eof => "EOF"

/-- `value` rendered into a template literal. -/
def Token.valueString (t : Token) : String :=
  match t.data with
  | .numericLiteral v => toString v
  | _ => t.strValue

/-- `ERROR_TOKEN` of `parser.ts`. -/
def ERROR_TOKEN : Token :=
  { file := "", range := { start := ⟨0, 0⟩, «end» := ⟨0, 0⟩ },
    data := .unknown "" }

inductive PFatal where
  | eofStep
  | outOfFuel
deriving DecidableEq, Repr

structure PState where
  tokens : List Token
  index : Nat
  diags : List ADiag
deriving Repr

abbrev ParserM := StateT PState (Except PFatal)

/-- `Parser.current` (the cursor never runs past the `EOF` token, which
`step` refuses to consume; reading past it is dead code that we map to
`ERROR_TOKEN`). -/
def pCurrent : ParserM Token := do
  let st ← get
  pure ((st.tokens.get? st.index).getD ERROR_TOKEN)

/-- `Parser.step`: `process.exit(1)` when the current token is `EOF`. -/
def pStep : ParserM Unit := do
  let t ← pCurrent
  if t.isEOF then throw .eofStep
  else modify fun st => { st with index := st.index + 1 }

def pDiag (item : DocumentItem) (message : String) : ParserM Unit :=
  modify fun st => { st with diags := st.diags ++ [{ item, message }] }

/-- The `current.tokenType === tt && current.value === v` test. -/
def Token.matchesTV (t : Token) (tt v : String) : Bool :=
  t.typeName = tt ∧ t.strValue = v

/-- `Parser.expect`. -/
def pExpect (tt v : String) : ParserM (Option Token) := do
  let current ← pCurrent
  if current.matchesTV tt v then
    pStep
    pure (some current)
  else do
    pDiag (afterToken current.toItem) ("Expected \"" ++ v ++ "\"")
    pure none

/-- `Parser.expectIdentifier` (the stray closing quote in the message is
in the source). -/
def pExpectIdentifier : ParserM (Option Token) := do
  let current ← pCurrent
  if current.typeName = "identifier" then
    pStep
    pure (some current)
  else do
    pDiag (afterToken current.toItem) "Expected identifier\""
    pure none

/-- `Parser.expectNumericLiteral`. -/
def pExpectNumericLiteral : ParserM (Option Token) := do
  let current ← pCurrent
  if current.typeName = "numeric-literal" then
    pStep
    pure (some current)
  else do
    pDiag (afterToken current.toItem) "Expected number\""
    pure none

/-- `Parser.expectStringLiteral`. -/
def pExpectStringLiteral : ParserM (Option Token) := do
  let current ← pCurrent
  if current.typeName = "string-literal" then
    pStep
    pure (some current)
  else do
    pDiag (afterToken current.toItem) "Expected string\""
    pure none

/-- `Parser.currentIs`. -/
def pCurrentIs (tt v : String) : ParserM Bool := do
  let current ← pCurrent
  pure (current.matchesTV tt v)

/-! ### AST node shapes and their smart constructors -/

structure IdentifierNode where
  tokens : List Token
  isComplete : Bool
deriving DecidableEq, Repr

/-- `identifierNode`: `isComplete` defaults to token-list non-emptiness
unless explicitly overridden with `false`. -/
def identifierNode (tokens : List Token) (overrideComplete : Option Bool) :
    IdentifierNode :=
  { tokens
    isComplete :=
      match overrideComplete with
      | some b => b
      | none => !tokens.isEmpty }

structure TypeNode where
  identifier : IdentifierNode
  args : List TypeNode
  isComplete : Bool

def typeNode (identifier : IdentifierNode) (args : List TypeNode) : TypeNode :=
  { identifier, args
    isComplete :=
      identifier.isComplete ∧ (args.isEmpty ∨ args.all (·.isComplete)) }

def emptyTypeNode : TypeNode := typeNode (identifierNode [] none) []

instance : Inhabited TypeNode := ⟨emptyTypeNode⟩

structure MessageFieldNode where
  optional : Option Token
  type : TypeNode
  name : Token
  ordinal : Option (Token × Token)
  isComplete : Bool

/-- `messageFieldNode` (fills `ERROR_TOKEN` defaults, computes
`isComplete`). -/
def messageFieldNode (optional : Option Token) (type : Option TypeNode)
    (name : Option Token) (ordinal : Option (Token × Option Token)) :
    MessageFieldNode :=
  let type := type.getD emptyTypeNode
  let name := name.getD ERROR_TOKEN
  let ordinal := ordinal.map fun (eq, v) => (eq, v.getD ERROR_TOKEN)
  { optional, type, name, ordinal
    isComplete :=
      type.isComplete ∧ name.typeName ≠ "unknown" ∧
        (ordinal.isNone ∨ ordinal.all fun o => o.2.typeName ≠ "unknown") }

structure EnumFieldNode where
  name : Token
  value : Option (Token × Token)
  isComplete : Bool
deriving DecidableEq, Repr

def enumFieldNode (name : Option Token) (value : Option (Token × Option Token)) :
    EnumFieldNode :=
  let name := name.getD ERROR_TOKEN
  let value := value.map fun (eq, v) => (eq, v.getD ERROR_TOKEN)
  { name, value
    isComplete :=
      name.typeName ≠ "unknown" ∧
        (value.isNone ∨ value.all fun o => o.2.typeName ≠ "unknown") }

structure RPCNode where
  rpcKeyword : Option Token
  name : Token
  requestType : TypeNode
  requestStream : Option Token
  returnsKeyword : Token
  responseType : TypeNode
  responseStream : Option Token
  isComplete : Bool

def rpcNode (rpcKeyword : Option Token) (name : Option Token)
    (requestType : Option TypeNode) (requestStream : Option Token)
    (returnsKeyword : Option Token) (responseType : Option TypeNode)
    (responseStream : Option Token) : RPCNode :=
  let name := name.getD ERROR_TOKEN
  let requestType := requestType.getD emptyTypeNode
  let responseType := responseType.getD emptyTypeNode
  let returnsKeyword := returnsKeyword.getD ERROR_TOKEN
  { rpcKeyword, name, requestType, requestStream, returnsKeyword,
    responseType, responseStream
    isComplete :=
      name.typeName ≠ "unknown" ∧ requestType.isComplete ∧
        responseType.isComplete }

inductive ASTNode where
  | packageNode (keyword : Option Token) (identifier : IdentifierNode)
      (isComplete : Bool)
  | messageNode (keyword : Option Token) (type : TypeNode)
      (fields : List MessageFieldNode) (isComplete : Bool)
  | enumNode (keyword : Option Token) (name : Token)
      (fields : List EnumFieldNode) (isComplete : Bool)
  | stringEnumNode (stringKeyword enumKeyword : Option Token) (name : Token)
      (fields : List Token) (isComplete : Bool)
  | serviceNode (keyword : Option Token) (name : Token) (rpcs : List RPCNode)
      (isComplete : Bool)

def mkPackageNode (keyword : Option Token) (identifier : IdentifierNode) :
    ASTNode :=
  .packageNode keyword identifier identifier.isComplete

def mkMessageNode (keyword : Option Token) (type : Option TypeNode)
    (fields : List MessageFieldNode) : ASTNode :=
  let type := type.getD emptyTypeNode
  .messageNode keyword type fields type.isComplete

def mkEnumNode (keyword : Option Token) (name : Option Token)
    (fields : List EnumFieldNode) : ASTNode :=
  let nameT := name.getD ERROR_TOKEN
  .enumNode keyword nameT fields (name.isSome ∧ nameT.typeName ≠ "unknown")

def mkStringEnumNode (stringKeyword enumKeyword : Option Token)
    (name : Option Token) (fields : List Token) : ASTNode :=
  let nameT := name.getD ERROR_TOKEN
  .stringEnumNode stringKeyword (some (enumKeyword.getD ERROR_TOKEN)) nameT
    fields (name.isSome ∧ nameT.typeName ≠ "unknown")

def mkServiceNode (keyword : Option Token) (name : Option Token)
    (rpcs : List RPCNode) : ASTNode :=
  let nameT := name.getD ERROR_TOKEN
  .serviceNode keyword nameT rpcs (name.isSome ∧ nameT.typeName ≠ "unknown")

/-! ### Productions -/

/-- The dotted-segment loop of `parseComplexIdentifier`. -/
def parseComplexIdentifierLoop (fuel : Nat) (tokens : List Token) :
    ParserM IdentifierNode := do
  match fuel with
  | 0 => throw .outOfFuel
  | fuel + 1 =>
    if (← pCurrentIs "symbol" ".") then do
      let dot ← pCurrent
      pStep
      match ← pExpectIdentifier with
      | none => pure (identifierNode (tokens ++ [dot]) (some false))
      | some name => parseComplexIdentifierLoop fuel (tokens ++ [dot, name])
    else
      pure (identifierNode tokens none)

/-- `Parser.parseComplexIdentifier`. -/
def parseComplexIdentifier (fuel : Nat) : ParserM IdentifierNode := do
  match ← pExpectIdentifier with
  | none => pure (identifierNode [] none)
  | some name => parseComplexIdentifierLoop fuel [name]

/-- `Parser.parseType` (the `do … while (currentIs ",")` argument loop is
`parseTypeArgsLoop`). -/
def parseType : Nat → ParserM TypeNode
  | 0 => throw .outOfFuel
  | fuel + 1 => do
    let identifier ← parseComplexIdentifier (fuel + 1)
    if !identifier.isComplete then
      pure (typeNode identifier [])
    else if !(← pCurrentIs "symbol" "<") then
      pure (typeNode identifier [])
    else do
      let args ← parseTypeArgsLoop fuel []
      let _ ← pExpect "symbol" ">"
      pure (typeNode identifier args)
where
  parseTypeArgsLoop : Nat → List TypeNode → ParserM (List TypeNode)
    | 0, _ => throw .outOfFuel
    | fuel + 1, args => do
      pStep
      let arg ← parseType fuel
      let args := args ++ [arg]
      if (← pCurrentIs "symbol" ",") then parseTypeArgsLoop fuel args
      else pure args

/-- `Parser.parsePackageDefinition`. -/
def parsePackageDefinition (fuel : Nat) : ParserM ASTNode := do
  let keyword ← pExpect "keyword" "package"
  let identifier ← parseComplexIdentifier fuel
  let _ ← pExpect "symbol" ";"
  pure (mkPackageNode keyword identifier)

/-- `Parser.parseEnumField`. -/
def parseEnumField : ParserM EnumFieldNode := do
  match ← pExpectIdentifier with
  | none => pure (enumFieldNode none none)
  | some name => do
    let value ←
      if (← pCurrentIs "symbol" "=") then do
        let equals ← pCurrent
        pStep
        let v ← pExpectNumericLiteral
        pure (some (equals, v))
      else pure none
    match value with
    | some (_, none) => pure (enumFieldNode (some name) value)
    | _ => do
      if (← pCurrentIs "symbol" "\x7d") then
        pure (enumFieldNode (some name) value)
      else do
        let _ ← pExpect "symbol" ","
        pure (enumFieldNode (some name) value)

/-- The field loop of `parseEnum` (zero-progress children are stepped
over). -/
def parseEnumLoop (fuel : Nat) (fields : List EnumFieldNode) :
    ParserM (List EnumFieldNode) := do
  match fuel with
  | 0 => throw .outOfFuel
  | fuel + 1 =>
    if (← pCurrentIs "symbol" "\x7d") then pure fields
    else do
      let tokenBefore := (← get).index
      let f ← parseEnumField
      let fields := fields ++ [f]
      if (← get).index = tokenBefore then pStep
      parseEnumLoop fuel fields

/-- `Parser.parseEnum`. -/
def parseEnum (fuel : Nat) : ParserM ASTNode := do
  let keyword ← pExpect "keyword" "enum"
  let name ← pExpectIdentifier
  match name with
  | none => pure (mkEnumNode keyword name [])
  | some _ => do
    match ← pExpect "symbol" "\x7b" with
    | none => pure (mkEnumNode keyword name [])
    | some _ => do
      let fields ← parseEnumLoop fuel []
      let _ ← pExpect "symbol" "\x7d"
      pure (mkEnumNode keyword name fields)

/-- The literal loop of `parseStringEnum`. -/
def parseStringEnumLoop (fuel : Nat) (fields : List Token) :
    ParserM (List Token) := do
  match fuel with
  | 0 => throw .outOfFuel
  | fuel + 1 =>
    if (← pCurrentIs "symbol" "\x7d") then pure fields
    else do
      let literal ← pExpectStringLiteral
      let fields ←
        match literal with
        | some l => pure (fields ++ [l])
        | none => do
          if !(← pCurrentIs "symbol" ",") then pStep
          pure fields
      if (← pCurrentIs "symbol" "\x7d") then pure fields
      else do
        let _ ← pExpect "symbol" ","
        parseStringEnumLoop fuel fields

/-- `Parser.parseStringEnum`. -/
def parseStringEnum (fuel : Nat) : ParserM ASTNode := do
  let stringKeyword ← pExpect "identifier" "string"
  let enumKeyword ← pExpect "keyword" "enum"
  let name ← pExpectIdentifier
  match name with
  | none => pure (mkStringEnumNode stringKeyword enumKeyword name [])
  | some _ => do
    match ← pExpect "symbol" "\x7b" with
    | none => pure (mkStringEnumNode stringKeyword enumKeyword name [])
    | some _ => do
      let fields ← parseStringEnumLoop fuel []
      let _ ← pExpect "symbol" "\x7d"
      pure (mkStringEnumNode stringKeyword enumKeyword name fields)

/-- `Parser.parseMessageField`. -/
def parseMessageField (fuel : Nat) : ParserM MessageFieldNode := do
  let optional ←
    if (← pCurrentIs "keyword" "optional") then do
      let t ← pCurrent
      pStep
      pure (some t)
    else pure none
  let type ← parseType fuel
  if !type.isComplete then
    pure (messageFieldNode optional (some type) none none)
  else do
    match ← pExpectIdentifier with
    | none => pure (messageFieldNode optional (some type) none none)
    | some name => do
      if (← pCurrentIs "symbol" "=") then do
        let equals ← pCurrent
        pStep
        match ← pExpectNumericLiteral with
        | none =>
          pure (messageFieldNode optional (some type) (some name)
            (some (equals, none)))
        | some v => do
          let _ ← pExpect "symbol" ";"
          pure (messageFieldNode optional (some type) (some name)
            (some (equals, some v)))
      else do
        let _ ← pExpect "symbol" ";"
        pure (messageFieldNode optional (some type) (some name) none)

/-- The field loop of `parseMessage`. -/
def parseMessageLoop (fuel : Nat) (fields : List MessageFieldNode) :
    ParserM (List MessageFieldNode) := do
  match fuel with
  | 0 => throw .outOfFuel
  | fuel + 1 =>
    if (← pCurrentIs "symbol" "\x7d") then pure fields
    else do
      let tokenBefore := (← get).index
      let f ← parseMessageField fuel
      let fields := fields ++ [f]
      if (← get).index = tokenBefore then pStep
      parseMessageLoop fuel fields

/-- `Parser.parseMessage`. -/
def parseMessage (fuel : Nat) : ParserM ASTNode := do
  let keyword ← pExpect "keyword" "message"
  let type ← parseType fuel
  match ← pExpect "symbol" "\x7b" with
  | none => pure (mkMessageNode keyword (some type) [])
  | some _ => do
    let fields ← parseMessageLoop fuel []
    let _ ← pExpect "symbol" "\x7d"
    pure (mkMessageNode keyword (some type) fields)

/-- `Parser.parseRPC`. -/
def parseRPC (fuel : Nat) : ParserM RPCNode := do
  let rpcKeyword ← pExpect "keyword" "rpc"
  match rpcKeyword with
  | none => pure (rpcNode rpcKeyword none none none none none none)
  | some _ => do
    match ← pExpectIdentifier with
    | none => pure (rpcNode rpcKeyword none none none none none none)
    | some name => do
      match ← pExpect "symbol" "(" with
      | none => pure (rpcNode rpcKeyword (some name) none none none none none)
      | some _ => do
        let requestStream ←
          if (← pCurrentIs "keyword" "stream") then do
            let t ← pCurrent
            pStep
            pure (some t)
          else pure none
        let requestType ← parseType fuel
        if !requestType.isComplete then
          pure (rpcNode rpcKeyword (some name) (some requestType)
            requestStream none none none)
        else do
          match ← pExpect "symbol" ")" with
          | none =>
            pure (rpcNode rpcKeyword (some name) (some requestType)
              requestStream none none none)
          | some _ => do
            let returnsKeyword ← pExpect "keyword" "returns"
            match returnsKeyword with
            | none =>
              pure (rpcNode rpcKeyword (some name) (some requestType)
                requestStream returnsKeyword none none)
            | some _ => do
              match ← pExpect "symbol" "(" with
              | none =>
                pure (rpcNode rpcKeyword (some name) (some requestType)
                  requestStream returnsKeyword none none)
              | some _ => do
                let responseStream ←
                  if (← pCurrentIs "keyword" "stream") then do
                    let t ← pCurrent
                    pStep
                    pure (some t)
                  else pure none
                let responseType ← parseType fuel
                if !responseType.isComplete then
                  pure (rpcNode rpcKeyword (some name) (some requestType)
                    requestStream returnsKeyword (some responseType)
                    responseStream)
                else do
                  match ← pExpect "symbol" ")" with
                  | none =>
                    pure (rpcNode rpcKeyword (some name) (some requestType)
                      requestStream returnsKeyword (some responseType)
                      responseStream)
                  | some _ => do
                    let _ ← pExpect "symbol" ";"
                    pure (rpcNode rpcKeyword (some name) (some requestType)
                      requestStream returnsKeyword (some responseType)
                      responseStream)

/-- The RPC loop of `parseService`. -/
def parseServiceLoop (fuel : Nat) (rpcs : List RPCNode) :
    ParserM (List RPCNode) := do
  match fuel with
  | 0 => throw .outOfFuel
  | fuel + 1 =>
    if (← pCurrentIs "symbol" "\x7d") then pure rpcs
    else do
      let tokenBefore := (← get).index
      let r ← parseRPC fuel
      let rpcs := rpcs ++ [r]
      if (← get).index = tokenBefore then pStep
      parseServiceLoop fuel rpcs

/-- `Parser.parseService`. -/
def parseService (fuel : Nat) : ParserM ASTNode := do
  let keyword ← pExpect "keyword" "service"
  match ← pExpectIdentifier with
  | none => pure (mkServiceNode keyword none [])
  | some name => do
    match ← pExpect "symbol" "\x7b" with
    | none => pure (mkServiceNode keyword (some name) [])
    | some _ => do
      let rpcs ← parseServiceLoop fuel []
      let _ ← pExpect "symbol" "\x7d"
      pure (mkServiceNode keyword (some name) rpcs)

/-- `Parser.parseTopLevel`. -/
def parseTopLevel (fuel : Nat) : ParserM (Option ASTNode) := do
  let current ← pCurrent
  if current.matchesTV "keyword" "message" then
    some <$> parseMessage fuel
  else if current.matchesTV "keyword" "enum" then
    some <$> parseEnum fuel
  else if current.matchesTV "identifier" "string" then
    some <$> parseStringEnum fuel
  else if current.matchesTV "keyword" "service" then
    some <$> parseService fuel
  else if current.matchesTV "keyword" "package" then
    some <$> parsePackageDefinition fuel
  else do
    pDiag current.toItem
      ("Unknown top level " ++ current.typeName ++ " \"" ++
        current.valueString ++ "\"")
    pStep
    pure none

/-- The top-level loop of `parse`. -/
def parseLoop (fuel : Nat) (nodes : List ASTNode) : ParserM (List ASTNode) := do
  match fuel with
  | 0 => throw .outOfFuel
  | fuel + 1 =>
    let current ← pCurrent
    if current.isEOF then pure nodes
    else do
      match ← parseTopLevel fuel with
      | some node => parseLoop fuel (nodes ++ [node])
      | none => parseLoop fuel nodes

/-- `parse(tokens, diagnostics)`: comment tokens are dropped at entry;
the result carries the AST and the parser diagnostics, or the fatal
outcome. -/
def parse (tokens : List Token) :
    Except PFatal (List ASTNode × List ADiag) := do
  let filtered := tokens.filter fun t => t.typeName ≠ "comment"
  let fuel := filtered.length * 2 + 16
  let (nodes, st) ← parseLoop fuel [] { tokens := filtered, index := 0, diags := [] }
  pure (nodes, st.diags)

/-! ## Semantic analyzer (`analyzer.ts`)

`BUILTIN_PACKAGE` and `UNKNOWN_PACKAGE` are the two symbol sentinels;
a user package id is the concatenated identifier string.  JavaScript
object identity (needed for the `===` comparisons in
`addGenericMessageInstances`) is modelled by an allocation id threaded
through the analyzer state: every `{ ...resolvedType }` spread and every
generic-instance literal allocates a fresh object. -/

inductive PackageId where
  | builtinPackage
  | unknownPackage
  | user (id : String)
deriving DecidableEq, Repr

inductive DefKind where
  | enum
  | stringEnum
  | message
  | service
deriving DecidableEq, Repr

/-- An entry of `SemanticAnalyzer.definitions` (the fields filled by
phase 1; the per-kind payloads that other kinds do not use are empty). -/
structure Definition where
  kind : DefKind
  packageId : PackageId
  name : String
  file : String
  argNames : List String
  enumFields : List (String × Int)
  stringEnumFields : List String
  msgFieldNodes : List MessageFieldNode
  rpcNodes : List RPCNode

/-- Type-instance kinds (`kind` of the resolved definition). -/
inductive TIKind where
  | builtin
  | enumK
  | stringEnumK
  | message
deriving DecidableEq, Repr

/-- A resolved type instance.  `oid` is the allocation id standing for
JavaScript object identity. -/
inductive TypeInst where
  | real (oid : Nat) (kind : TIKind) (packageId : PackageId) (name : String)
      (args : List TypeInst)
  | generic (oid : Nat) (name : String)

def TypeInst.oid : TypeInst → Nat
  | .real oid _ _ _ _ => oid
  | .generic oid _ => oid

/-- JavaScript `===` on type-instance objects. -/
def jsEq (a b : TypeInst) : Bool := a.oid = b.oid

mutual
/-- Structural equality on type instances: same definition identity
(kind, package, name) and recursively equal arguments.  This is the
equality against which the dedup invariant of the specification is stated. -/
def structEq : TypeInst → TypeInst → Bool
  | .real _ k p n args, .real _ k' p' n' args' =>
    k = k' ∧ p = p' ∧ n = n' ∧ structEqList args args'
  | .generic _ n, .generic _ n' => n = n'
  | _, _ => false

def structEqList : List TypeInst → List TypeInst → Bool
  | [], [] => true
  | a :: as, b :: bs => structEq a b ∧ structEqList as bs
  | _, _ => false
end

/-- The builtin table of `builtinTypes()` (first revision): scalars plus
`Array<T>`, `Nullable<T>` and the rest-args `OneOf`. -/
structure BuiltinType where
  name : String
  argNames : List String
  restArgs : Bool
deriving DecidableEq, Repr

def builtinTypes : List BuiltinType :=
  (["void", "int32", "int64", "uint32", "uint64", "float", "double",
    "sint32", "sint64", "fixed32", "fixed64", "sfixed32", "sfixed64",
    "bool", "string", "bytes", "Date"].map fun n =>
      { name := n, argNames := [], restArgs := false })
  ++ [{ name := "Array", argNames := ["T"], restArgs := false },
      { name := "Nullable", argNames := ["T"], restArgs := false },
      { name := "OneOf", argNames := [], restArgs := true }]

/-- What `resolveType` reads off a found builtin or user definition. -/
structure FoundType where
  kind : TIKind
  packageId : PackageId
  name : String
  arity : Nat
  restArgs : Bool
deriving DecidableEq, Repr

def Definition.tiKind (d : Definition) : TIKind :=
  match d.kind with
  | .enum => .enumK
  | .stringEnum => .stringEnumK
  | _ => .message

def Definition.toFound (d : Definition) : FoundType :=
  { kind := d.tiKind, packageId := d.packageId, name := d.name,
    arity := d.argNames.length, restArgs := false }

def BuiltinType.toFound (b : BuiltinType) : FoundType :=
  { kind := .builtin, packageId := .builtinPackage, name := b.name,
    arity := b.argNames.length, restArgs := b.restArgs }

/-- Unrecoverable JavaScript runtime failures (`TypeError` on
`undefined` property access or on interpolating a symbol), and fuel
exhaustion of the embedding. -/
inductive ARuntime where
  | typeError
  | outOfFuel
deriving DecidableEq, Repr

structure ASt where
  nextOid : Nat
  diags : List ADiag
  /-- `genericInstances` arrays of the message definitions, keyed by the
  definition identity `(packageId, name)`; the spread copy in
  `resolveType` aliases the same array. -/
  instStore : List ((PackageId × String) × List (List TypeInst))

abbrev AnalyzerM := StateT ASt (Except ARuntime)

def allocOid : AnalyzerM Nat :=
  modifyGet fun st => (st.nextOid, { st with nextOid := st.nextOid + 1 })

def aDiag (item : DocumentItem) (message : String) : AnalyzerM Unit :=
  modify fun st => { st with diags := st.diags ++ [{ item, message }] }

def getInstances (key : PackageId × String) : AnalyzerM (List (List TypeInst)) := do
  let st ← get
  pure (((st.instStore.find? fun e => e.1 = key).map Prod.snd).getD [])

def pushInstance (key : PackageId × String) (args : List TypeInst) :
    AnalyzerM Unit :=
  modify fun st =>
    { st with
      instStore :=
        if st.instStore.any fun e => e.1 = key then
          st.instStore.map fun e => if e.1 = key then (e.1, e.2 ++ [args]) else e
        else st.instStore ++ [(key, [args])] }

/-- `getCurrentPackageFromNodes` (the `package-definition` filter of the
analyzer matches the package nodes of the parser). -/
def getCurrentPackageFromNodes (file : String) (ast : List ASTNode) :
    AnalyzerM PackageId := do
  let packageDefinitions := ast.filterMap fun n =>
    match n with
    | .packageNode keyword identifier _ => some (keyword, identifier)
    | _ => none
  match packageDefinitions with
  | [] => do
    aDiag { file, range := { start := ⟨0, 0⟩, «end» := ⟨0, 0⟩ } }
      "Every file requires a package definition"
    pure .unknownPackage
  | (firstKeyword, firstIdentifier) :: rest =>
    let _ := firstKeyword
    if !firstIdentifier.isComplete then
      pure .unknownPackage
    else do
      for (keyword, _) in rest do
        aDiag ((keyword.getD ERROR_TOKEN).toItem)
          "Multiple package definitions are not allowed."
      pure (.user (String.join (firstIdentifier.tokens.map (·.strValue))))

/-- `astNodeToDefinition` (phase 1 materialization).  The enum-field
loop is that of `enumDefinition`: explicit values overwrite the running
counter and the counter resumes from them. -/
def astNodeToDefinition (file : String) (node : ASTNode)
    (packageId : PackageId) : AnalyzerM (Option Definition) := do
  match node with
  | .enumNode _ name fields _ =>
    if name.typeName = "identifier" then
      let enumFields := (fields.foldl (fun (acc : List (String × Int) × Int) field =>
        if !field.isComplete then acc
        else
          let value :=
            match field.value with
            | some (_, v) => v.numValue
            | none => acc.2
          (acc.1 ++ [(field.name.strValue, value)], value + 1)) ([], 0)).1
      pure (some { kind := .enum, packageId, name := name.strValue, file,
                   argNames := [], enumFields, stringEnumFields := [],
                   msgFieldNodes := [], rpcNodes := [] })
    else pure none
  | .stringEnumNode _ _ name fields _ =>
    if name.typeName = "identifier" then
      pure (some { kind := .stringEnum, packageId, name := name.strValue, file,
                   argNames := [], enumFields := [],
                   stringEnumFields := fields.map (·.strValue),
                   msgFieldNodes := [], rpcNodes := [] })
    else pure none
  | .messageNode _ type fields _ =>
    if type.isComplete then do
      let name := ((type.identifier.tokens.head?).getD ERROR_TOKEN).strValue
      let args ← goArgs type.args []
      match args with
      | none => pure none
      | some argNames =>
        pure (some { kind := .message, packageId, name, file, argNames,
                     enumFields := [], stringEnumFields := [],
                     msgFieldNodes := fields, rpcNodes := [] })
    else pure none
  | .serviceNode _ name rpcs _ =>
    if name.typeName = "identifier" then
      pure (some { kind := .service, packageId, name := name.strValue, file,
                   argNames := [], enumFields := [], stringEnumFields := [],
                   msgFieldNodes := [], rpcNodes := rpcs })
    else pure none
  | .packageNode _ _ _ => pure none
where
  /-- The formal-generic loop of `messageDefinition`; the diagnostic
  items index `arg.args[0]`, which throws when absent. -/
  goArgs : List TypeNode → List String → AnalyzerM (Option (List String))
    | [], acc => pure (some acc)
    | arg :: rest, acc => do
      if arg.args.length > 0 then do
        aDiag (((arg.args.head!.identifier.tokens.head?).getD ERROR_TOKEN).toItem)
          "Generic arguments must be simple indentifiers and must not themselves be generic."
        pure none
      else if arg.identifier.tokens.length > 1 then do
        -- `arg.args[0].identifier` is `undefined` here: TypeError.
        throw .typeError
      else
        goArgs rest
          (acc ++ [((arg.identifier.tokens.head?).getD ERROR_TOKEN).strValue])

/-- `SemanticAnalyzer.analyzeASTNodes`: compute the package id, then
materialize the definitions of this file. -/
def analyzeASTNodes (file : String) (astNodes : List ASTNode) :
    AnalyzerM (List Definition) := do
  let packageId ← getCurrentPackageFromNodes file astNodes
  let mut defs : List Definition := []
  for node in astNodes do
    match ← astNodeToDefinition file node packageId with
    | some d => defs := defs ++ [d]
    | none => pure ()
  pure defs

/-- `SemanticAnalyzer.resolveType`.  The package-prefixed lookup keeps
the operator precedence of the source: the `??` chain binds tighter than the
conditional, so a successful direct match only makes the condition
truthy and the returned value is always the *relative* lookup (which
interpolates the current package id and throws on the symbol
sentinels). -/
def resolveType (defs : List Definition) (currentDef : Definition) :
    Nat → TypeNode → AnalyzerM (Option TypeInst)
  | 0, _ => throw .outOfFuel
  | fuel + 1, typeNode => do
    if !typeNode.isComplete then
      pure none
    else
    let typeArgs := if currentDef.kind = .message then currentDef.argNames else []
    let name := typeNode.identifier.tokens
    if name.length = 1 ∧
        typeArgs.any (· = ((name.head?).getD ERROR_TOKEN).strValue) then
      if typeNode.args.length > 0 ∧
          (typeNode.args.head?.map (·.identifier.isComplete)).getD false then do
        -- `${name[0]}` interpolates the token object: "[object Object]".
        aDiag ((((typeNode.args.head!.identifier.tokens.head?).getD
            ERROR_TOKEN)).toItem)
          "Generic type \"[object Object]\" must not have a generic argument"
        pure none
      else do
        let oid ← allocOid
        pure (some (.generic oid (((name.head?).getD ERROR_TOKEN).strValue)))
    else do
      let packageId :=
        String.join ((name.take (name.length - 2)).map (·.strValue))
      let typeName := ((name.getLast?).getD ERROR_TOKEN).strValue
      let nonService := defs.filter fun d => d.kind ≠ .service
      let resolvedType : Option FoundType ←
        if packageId = "" then
          pure ((builtinTypes.find? fun t => t.name = typeName).map
              BuiltinType.toFound <|>
            (nonService.find? fun d =>
              d.name = typeName ∧ d.packageId = currentDef.packageId).map
              Definition.toFound)
        else
          let direct := nonService.find? fun d =>
            d.name = typeName ∧ d.packageId = .user packageId
          let currentIsString :=
            match currentDef.packageId with
            | .user _ => true
            | _ => false
          if direct.isSome || currentIsString then
            match currentDef.packageId with
            | .user current =>
              pure ((nonService.find? fun d =>
                d.name = typeName ∧
                  d.packageId = .user (current ++ "." ++ packageId)).map
                Definition.toFound)
            | _ => throw .typeError
          else
            pure none
      let diagnosticName := String.join (name.map (·.strValue))
      match resolvedType with
      | none => do
        aDiag (((typeNode.identifier.tokens.head?).getD ERROR_TOKEN).toItem)
          ("Unknown type \"" ++ diagnosticName ++ "\"")
        pure none
      | some rt => do
        let oid ← allocOid
        let args? ← goArgs rt diagnosticName fuel typeNode.args 0 []
        match args? with
        | none => pure none
        | some args => pure (some (.real oid rt.kind rt.packageId rt.name args))
where
  /-- The generic-argument loop (`idx` counts only arguments whose
  identifier parsed). -/
  goArgs (rt : FoundType) (diagnosticName : String) :
      Nat → List TypeNode → Nat → List TypeInst →
        AnalyzerM (Option (List TypeInst))
    | _, [], _, acc => pure (some acc)
    | 0, _ :: _, _, _ => throw .outOfFuel
    | fuel + 1, generic :: rest, idx, acc => do
      if !generic.identifier.isComplete then
        goArgs rt diagnosticName fuel rest idx acc
      else do
        if !rt.restArgs ∧ idx ≥ rt.arity then
          aDiag (((generic.identifier.tokens.head?).getD ERROR_TOKEN).toItem)
            (if rt.arity = 0 then
              "Type \"" ++ diagnosticName ++ "\" does not have generic arguments"
            else
              "Type \"" ++ diagnosticName ++ "\" only has " ++
                toString rt.arity ++ " generic arguments")
        match ← resolveType defs currentDef fuel generic with
        | none => pure none
        | some verified =>
          goArgs rt diagnosticName fuel rest (idx + 1) (acc ++ [verified])

/-- One analyzed message field. -/
structure MsgField where
  name : String
  ordinal : Int
  optional : Bool
  type : TypeInst

/-- `SemanticAnalyzer.analyzeMessageFields`: the running counter starts
at 1, is the effective ordinal of every pushed field, and advances after
every complete field; an explicit ordinal is only *checked* against the
counter (`n < k` errors), never adopted. -/
def analyzeMessageFields (defs : List Definition) (definition : Definition) :
    AnalyzerM (List MsgField) :=
  go definition.msgFieldNodes 1 []
where
  go : List MessageFieldNode → Int → List MsgField → AnalyzerM (List MsgField)
    | [], _, acc => pure acc
    | field :: rest, ordinal, acc => do
      if !field.isComplete then
        go rest ordinal acc
      else do
        match field.ordinal with
        | some (_, valueTok) =>
          let newOrdinal := valueTok.numValue
          if newOrdinal < ordinal then
            aDiag valueTok.toItem
              (if newOrdinal < 1 then
                "Message field numbers must be greater than 0."
              else "Message field numbers must be sequential.")
        | none => pure ()
        let type ← resolveType defs definition 1000 field.type
        let acc :=
          match type with
          | some ty =>
            acc ++ [{ name := field.name.strValue, ordinal,
                      type := ty, optional := field.optional.isSome }]
          | none => acc
        go rest (ordinal + 1) acc

/-- `SemanticAnalyzer.addGenericMessageInstances`: record the argument
tuple of every message instance unless an already-recorded tuple is
`===`-identical element-wise; recurse into the arguments.  (On a generic
instance the `type.args` iteration throws.) -/
def addGenericMessageInstances : Nat → TypeInst → AnalyzerM Unit
  | 0, _ => throw .outOfFuel
  | _ + 1, .generic _ _ => throw .typeError
  | fuel + 1, .real oid kind packageId name args => do
    let _ := oid
    if kind = .message then do
      let insts ← getInstances (packageId, name)
      if !insts.any (fun tuple =>
          tuple.length = args.length ∧
            (tuple.zip args).all fun (a, b) => jsEq a b) then
        pushInstance (packageId, name) args
    goList fuel args
where
  goList : Nat → List TypeInst → AnalyzerM Unit
    | _, [] => pure ()
    | 0, _ :: _ => throw .outOfFuel
    | fuel + 1, arg :: rest => do
      addGenericMessageInstances fuel arg
      goList fuel rest

/-- `SemanticAnalyzer.serviceResolveType`: the unchecked
`as DeepRealType` cast means a failed resolution flows `undefined` into
`addGenericMessageInstances`, which throws. -/
def serviceResolveType (defs : List Definition) (definition : Definition)
    (typeNode : TypeNode) : AnalyzerM TypeInst := do
  match ← resolveType defs definition 1000 typeNode with
  | none => throw .typeError
  | some ty => do
    addGenericMessageInstances 1000 ty
    pure ty

/-- One analyzed RPC. -/
structure RpcRes where
  path : String
  requestStream : Bool
  requestType : TypeInst
  responseStream : Bool
  responseType : TypeInst

/-- `SemanticAnalyzer.analyzeServiceRPCs`. -/
def analyzeServiceRPCs (defs : List Definition) (definition : Definition) :
    AnalyzerM (List RpcRes) :=
  go definition.rpcNodes []
where
  go : List RPCNode → List RpcRes → AnalyzerM (List RpcRes)
    | [], acc => pure acc
    | rpc :: rest, acc => do
      let requestType ← serviceResolveType defs definition rpc.requestType
      let responseType ← serviceResolveType defs definition rpc.responseType
      go rest
        (acc ++ [{ path := rpc.name.strValue,
                   requestStream := rpc.requestStream.isSome,
                   requestType,
                   responseStream := rpc.responseStream.isSome,
                   responseType }])

/-- Result of `analyzeDefinition` for one definition. -/
inductive DefResult where
  | msg (fields : List MsgField)
  | svc (rpcs : List RpcRes)
  | other

/-- `SemanticAnalyzer.analyze`: run `analyzeDefinition` over all
definitions. -/
def analyze (defs : List Definition) : AnalyzerM (List DefResult) :=
  defs.mapM fun d =>
    match d.kind with
    | .message => DefResult.msg <$> analyzeMessageFields defs d
    | .service => DefResult.svc <$> analyzeServiceRPCs defs d
    | _ => pure .other

/-! ### The whole front-end pipeline on one file -/

inductive CompileError where
  | parseFatal (e : PFatal)
  | runtime (e : ARuntime)
deriving DecidableEq, Repr

structure CompileResult where
  tokenizeDiags : List ADiag
  parseDiags : List ADiag
  definitions : List Definition
  results : List DefResult
  finalState : ASt

/-- Tokenize, parse and analyze a single source file, starting from a
fresh analyzer state. -/
def compileFile (file source : String) : Except CompileError CompileResult := do
  let (tokens, tokenizeDiags) := tokenize file source
  match parse tokens with
  | .error e => throw (.parseFatal e)
  | .ok (ast, parseDiags) =>
    match (do
        let defs ← analyzeASTNodes file ast
        let results ← analyze defs
        pure (defs, results) :
        AnalyzerM (List Definition × List DefResult))
      |>.run { nextOid := 0, diags := [], instStore := [] } with
    | .error e => throw (.runtime e)
    | .ok ((defs, results), st) =>
      pure { tokenizeDiags, parseDiags, definitions := defs, results,
             finalState := st }

/-! ## GenIR and code generation (`codegen/gen-ast.ts`, `codegen/nodes.ts`,
`codegen/type-node.ts`, `codegen/serialize-ast.ts`,
`codegen/deserialize-ast.ts`, `codegen/type.ts`)

The source models the per-node closures (writers, readers, selectors,
conditions, map adapters, switch predicates) as first-class functions;
following the design note of the specification they are embedded as small
first-order tags, each interpreted to exactly the strings the closure
produces. -/

inductive Strategy where
  | native
  | evolved
deriving DecidableEq, Repr

/-- The leaf writer/reader pairs (`PrimitiveGenNode` construction
sites). -/
inductive PrimSpec where
  /-- `primitiveNode(type)` -/
  | named (type : String)
  /-- `BOOL_NODE` -/
  | boolPrim
  /-- `DATE_NODE` -/
  | datePrim
  /-- `NULL_NODE` -/
  | nullPrim
  /-- the inner primitive of `subMessageNode(messageName, generics)` -/
  | subMessage (messageName generics : String)
deriving DecidableEq, Repr

/-- `field` selector closures of `fieldNode` call sites. -/
inductive Selector where
  /-- `(value) => value` -/
  | identity
  /-- `(value) => value.name` -/
  | fieldName (name : String)
  /-- `(value) => value[i]` -/
  | index (i : Nat)
deriving DecidableEq, Repr

/-- `condition` closures of `fieldNode` call sites. -/
inductive FieldCond where
  /-- `(field) => field !== null` -/
  | notNull
  /-- `(field) => field !== undefined` -/
  | notUndefined
deriving DecidableEq, Repr

/-- `initializeValue` closures of `structNode` call sites. -/
inductive InitValue where
  /-- `() => []` -/
  | noInit
  /-- `(value) => [value = null;]` -/
  | setNull
  /-- `(value) => [value = [];]` -/
  | setEmptyArray
deriving DecidableEq, Repr

/-- `mapSerialize` closures. -/
inductive MapSer where
  /-- `(value) => value as number` (numeric enums) -/
  | asNumber
  /-- `(value) => Object.entries(value)` -/
  | objectEntries
deriving DecidableEq, Repr

/-- `mapDeserialize` closures. -/
inductive MapDeser where
  /-- `(value) => new Map(value)` -/
  | newMap
deriving DecidableEq, Repr

/-- Switch predicates of the builtin `Any` definition. -/
inductive SwitchPred where
  | isNull
  | typeofNumber
  | typeofString
  | typeofBoolean
  | isArray
  | typeofObject
deriving DecidableEq, Repr

/-- The `GenNode` union of `gen-ast.ts`. -/
inductive GenNode where
  | primitive (p : PrimSpec)
  | nullable (sub : GenNode)
  | len (sub : GenNode)
  | array (sub : GenNode)
  | struct (initializeValue : InitValue) (fields : List GenNode)
  | field (ordinal : Nat) (wireType : Option Nat) (sel : Selector)
      (condition : Option FieldCond) (node : GenNode)
  | «switch» (conditions : List (SwitchPred × GenNode))
  | mapValue (mapSerialize : Option MapSer) (mapDeserialize : Option MapDeser)
      (node : GenNode)

/-- `type` discriminator string of a GenNode (the `sub.type === "array"`
test of `type-node.ts` reads it). -/
def GenNode.typeTag : GenNode → String
  | .primitive _ => "primitive"
  | .nullable _ => "nullable"
  | .len _ => "len"
  | .array _ => "array"
  | .struct _ _ => "struct"
  | .field _ _ _ _ _ => "field"
  | .«switch» _ => "switch"
  | .mapValue _ _ _ => "map-value"

/-! ### `nodes.ts` constructors -/

def NULL_NODE : GenNode := .primitive .nullPrim

def DATE_NODE : GenNode := .primitive .datePrim

def BOOL_NODE : GenNode := .primitive .boolPrim

def primitiveNode (type : String) : GenNode := .primitive (.named type)

def nullableNode (sub : GenNode) : GenNode := .nullable sub

def lenNode (sub : GenNode) : GenNode := .len sub

def arrayNode (sub : GenNode) : GenNode := lenNode (.array sub)

def fieldNode (ordinal : Nat) (field : Selector)
    (pair : Option Nat × GenNode) (condition : Option FieldCond) : GenNode :=
  .field ordinal pair.1 field condition pair.2

def structNode (initializeValue : InitValue) (fields : List GenNode) :
    GenNode :=
  lenNode (.struct initializeValue fields)

def switchNode (conditions : List (SwitchPred × GenNode)) : GenNode :=
  .«switch» conditions

def mapValueNode (mapSerialize : Option MapSer) (mapDeserialize : Option MapDeser)
    (node : GenNode) : GenNode :=
  .mapValue mapSerialize mapDeserialize node

def subMessageNode (messageName generics : String) : GenNode :=
  lenNode (.primitive (.subMessage messageName generics))

def mapNode (key : Option Nat × GenNode) (value : Option Nat × GenNode) :
    GenNode :=
  mapValueNode none (some .newMap)
    (arrayNode
      (structNode .setEmptyArray
        [fieldNode 1 (.index 0) key none,
         fieldNode 2 (.index 1) value none]))

def unwrapLen : GenNode → GenNode
  | .len sub => unwrapLen sub
  | .mapValue ms md node => .mapValue ms md (unwrapLen node)
  | n => n

/-! ### Closure interpretations -/

/-- `safeIdentifier` of `codegen/utils.ts`. -/
def safeIdentifier (value : String) : String :=
  ⟨value.toList.foldl (fun acc c =>
    if c = '[' then acc ++ ['_']
    else if c = ']' then acc
    else if c = '.' then acc ++ ['_']
    else acc ++ [c]) []⟩

def Selector.apply : Selector → String → String
  | .identity, v => v
  | .fieldName n, v => v ++ "." ++ n
  | .index i, v => v ++ "[" ++ toString i ++ "]"

def FieldCond.apply : FieldCond → String → String
  | .notNull, f => f ++ " !== null"
  | .notUndefined, f => f ++ " !== undefined"

def InitValue.apply : InitValue → String → List String
  | .noInit, _ => []
  | .setNull, v => [v ++ " = null;"]
  | .setEmptyArray, v => [v ++ " = [];"]

def MapSer.apply : MapSer → String → String
  | .asNumber, v => v ++ " as number"
  | .objectEntries, v => "Object.entries(" ++ v ++ ")"

def MapDeser.apply : MapDeser → String → String
  | .newMap, v => "new Map(" ++ v ++ ")"

def SwitchPred.apply : SwitchPred → String → String
  | .isNull, v => v ++ " === null"
  | .typeofNumber, v => "typeof(" ++ v ++ ") === \"number\""
  | .typeofString, v => "typeof(" ++ v ++ ") === \"string\""
  | .typeofBoolean, v => "typeof(" ++ v ++ ") === \"boolean\""
  | .isArray, v => "Array.isArray(" ++ v ++ ")"
  | .typeofObject, v => "typeof(" ++ v ++ ") === \"object\""

/-- `writer` lines of each primitive.  The template of `BOOL_NODE` is
`` `writer.uint32(${value ? 1 : 0});` ``: the conditional is evaluated at
template-construction time on the value *expression string*, whose
JavaScript truthiness is non-emptiness. -/
def PrimSpec.writer : PrimSpec → String → List String
  | .named t, v => ["writer." ++ t ++ "(" ++ v ++ ");"]
  | .boolPrim, v => ["writer.uint32(" ++ (if v = "" then "0" else "1") ++ ");"]
  | .datePrim, v => ["writer.string(" ++ v ++ ".toISOString());"]
  | .nullPrim, _ => ["writer.uint32(0);"]
  | .subMessage name generics, v =>
    [name ++ "[" ++
      (if generics ≠ "" then "\"serialize<" ++ generics ++ ">\""
       else "\"serialize\"") ++ "](writer, " ++ v ++ ");"]

/-- `reader` lines of each primitive. -/
def PrimSpec.reader : PrimSpec → String → List String
  | .named t, v => [v ++ " = reader." ++ t ++ "();"]
  | .boolPrim, v => [v ++ " = !!reader.uint32();"]
  | .datePrim, v => [v ++ " = new Date(reader.string());"]
  | .nullPrim, v => [v ++ " = null;"]
  | .subMessage name generics, v =>
    [v ++ " = " ++ name ++ "[" ++
      (if generics ≠ "" then "\"deserialize<" ++ generics ++ ">\""
       else "\"deserialize\"") ++ "](reader, end);"]

/-- `(genNode.ordinal << 3) + genNode.wireType` (a missing wire type is
`undefined` and the sum renders as `NaN`). -/
def tagValue (ordinal : Nat) (wireType : Option Nat) : String :=
  match wireType with
  | some w => toString (ordinal * 8 + w)
  | none => "NaN"

/-! ### `serialize-ast.ts` -/

def indent2 (lines : List String) : List String :=
  lines.map fun l => "  " ++ l

/-- `serializeGenNode` (the GenNode walk is given fuel; every concrete
run below has enough, and each recursive call descends into a child
node). -/
def serializeGenNode : Nat → GenNode → String → List String
  | 0, _, _ => []
  | fuel + 1, node, value =>
    match node with
    | .primitive p => p.writer value
    | .array sub =>
      let idSafeVal := safeIdentifier value
      ["for (const " ++ idSafeVal ++ "_item of " ++ value ++ ") \x7b"] ++
        indent2 (serializeGenNode fuel sub (idSafeVal ++ "_item")) ++ ["\x7d"]
    | .len sub =>
      ["writer.fork();"] ++ serializeGenNode fuel sub value ++
        ["writer.ldelim();"]
    | .nullable sub =>
      ["writer.uint32(" ++ value ++ " === null ? 0 : 1);",
       "if (" ++ value ++ " !== null) \x7b"] ++
        indent2 (serializeGenNode fuel sub value) ++ ["\x7d"]
    | .struct _ fields =>
      (fields.map fun f => serializeGenNode fuel f value).flatten
    | .field ordinal wireType sel condition sub =>
      let fieldExpr := sel.apply value
      let optionalIndent := if condition.isSome then "  " else ""
      (match condition with
       | some c => ["if (" ++ c.apply fieldExpr ++ ") \x7b"]
       | none => []) ++
        [optionalIndent ++ "writer.uint32(" ++ tagValue ordinal wireType ++
          ");"] ++
        (serializeGenNode fuel sub fieldExpr).map
          (fun s => optionalIndent ++ s) ++
        (match condition with
         | some _ => ["\x7d"]
         | none => [])
    | .«switch» conditions =>
      match conditions with
      | [] => []
      | (pred, first) :: rest =>
        (["if (" ++ pred.apply value ++ ") \x7b"] ++
          indent2 (serializeGenNode fuel first value) ++ ["\x7d"]) ++
        (rest.map fun (p, n) =>
          ["else if (" ++ p.apply value ++ ") \x7b"] ++
            indent2 (serializeGenNode fuel n value) ++ ["\x7d"]).flatten
    | .mapValue mapSerialize _ sub =>
      let source := serializeGenNode fuel sub
        (if mapSerialize.isSome then value ++ "_" else value)
      match mapSerialize with
      | some m =>
        ["let " ++ value ++ "_: any = " ++ m.apply value ++ ";"] ++ source
      | none => source

/-! ### `deserialize-ast.ts` -/

/-- The `} else ` chaining of `deserializeStructGenNode`: block `i > 0`
gets `} else ` spliced before its first line, and every line is
indented. -/
def chainElse (blocks : List (List String)) : List String :=
  (blocks.enum.map fun (i, ls) =>
    match ls with
    | [] => []
    | l :: rest =>
      ("  " ++ (if i > 0 then "\x7d else " else "") ++ l) ::
        rest.map (fun s => "  " ++ s)).flatten

/-- The struct body of `deserializeStructGenNode`, shared with the
`switch` deserialization, over already-deserialized field blocks. -/
def structDeserBody (initLines : List String)
    (fieldBlocks : List (List String)) : List String :=
  initLines ++
    ["while (reader.pos < end) \x7b", "  const tag = reader.uint32();"] ++
    (match fieldBlocks with
     | [] => ["  reader.skipType(tag & 7);"]
     | _ :: _ =>
       ["  const idx = tag >>> 3;"] ++ chainElse fieldBlocks ++
         ["  \x7d else \x7b", "    reader.skipType(tag & 7);", "  \x7d"]) ++
    ["\x7d"]

/-- `deserializeGenNode` (`deserializeFieldGenNode` opens an
`if (idx === ordinal) {` block that the struct body chains with
`} else `; the `switch` variant re-packages its branches as a struct
body). -/
def deserializeGenNode : Nat → GenNode → String → List String
  | 0, _, _ => []
  | fuel + 1, node, value =>
    match node with
    | .primitive p => p.reader value
    | .array sub =>
      let idSafeVal := safeIdentifier value
      [value ++ " = [];",
       "let " ++ idSafeVal ++ "_i = 0;",
       "while (reader.pos < end) \x7b"] ++
        indent2 (deserializeGenNode fuel sub
          (value ++ "[" ++ idSafeVal ++ "_i]")) ++
        ["  " ++ idSafeVal ++ "_i++;", "\x7d"]
    | .len sub =>
      ["const end = reader.uint32() + reader.pos;"] ++
        deserializeGenNode fuel sub value
    | .nullable sub =>
      ["if (reader.uint32() === 0) \x7b",
       "  " ++ value ++ " = null;",
       "\x7d else \x7b"] ++ indent2 (deserializeGenNode fuel sub value) ++ ["\x7d"]
    | .struct initializeValue fields =>
      structDeserBody (initializeValue.apply value)
        (fields.map fun f => deserializeGenNode fuel f value)
    | .field ordinal _ sel _ sub =>
      ["if (idx === " ++ toString ordinal ++ ") \x7b"] ++
        indent2 (deserializeGenNode fuel sub (sel.apply value))
    | .«switch» conditions =>
      structDeserBody []
        (conditions.map fun c => deserializeGenNode fuel c.2 value)
    | .mapValue _ mapDeserialize sub =>
      deserializeGenNode fuel sub value ++
        (match mapDeserialize with
         | some m => [value ++ " = " ++ m.apply value ++ ";"]
         | none => [])

/-! ### `type.ts` and `context.ts` (the pieces `typeToGenNode` reads) -/

/-- A reference to a type definition as the codegen sees it
(`type.definition`). -/
structure TypeDefnRef where
  kind : TIKind
  packageId : PackageId
  name : String
  file : String
deriving DecidableEq, Repr

/-- A deeply-real type instance on the codegen side
(`DeepRealTypeInstance`: a resolved definition plus resolved
arguments). -/
inductive DeepReal where
  | mk (defn : TypeDefnRef) (args : List DeepReal)

def DeepReal.defn : DeepReal → TypeDefnRef
  | .mk d _ => d

def DeepReal.args : DeepReal → List DeepReal
  | .mk _ a => a

structure CodeGenContext where
  strategy : Strategy
  currentFile : String
  currentPackage : String
deriving DecidableEq, Repr

/-- JavaScript runtime / thrown errors of the generation path, plus
embedding fuel exhaustion. -/
inductive GenErr where
  | thrown (message : String)
  | typeError
  | outOfFuel
deriving DecidableEq, Repr

/-- Interpolating a `PackageId` into a template literal (`as string`):
the two symbol sentinels throw a `TypeError`. -/
def PackageId.asTemplate : PackageId → Except GenErr String
  | .user s => pure s
  | _ => throw .typeError

/-- `fqTypeName` of `context.ts` (the `addTypeToImports` bookkeeping
only affects the emitted import lines and is not modelled). -/
def fqTypeName (context : CodeGenContext) (defn : TypeDefnRef) :
    Except GenErr String := do
  if context.currentFile ≠ defn.file then
    pure ((← defn.packageId.asTemplate) ++ "__" ++ defn.name)
  else
    pure defn.name

def fqBuiltinName (name : String) : String := "Builtin__" ++ name

def BUILTIN_TS_TYPE : String → Option String := fun n =>
  (["int32", "int64", "uint32", "uint64", "float", "double", "sint32",
    "sint64", "fixed32", "fixed64", "sfixed32", "sfixed64"].contains n).rec
    (motive := fun _ => Option String)
    (if n = "bool" then some "boolean"
     else if n = "string" then some "string"
     else if n = "bytes" then some "Uint8Array"
     else if n = "Date" then some "Date"
     else if n = "void" then some "void"
     else if n = "any" then some "any"
     else none)
    (some "number")

/-- `generateType` of `codegen/type.ts` on deeply-real instances (the
`generic` branch is unreachable there); a name absent from
`BUILTIN_TS_TYPE` interpolates as `undefined`. -/
def generateType (context : CodeGenContext) :
    Nat → DeepReal → Except GenErr String
  | 0, _ => throw .outOfFuel
  | fuel + 1, .mk defn args => do
    let typeArgs ←
      if args.isEmpty then pure ""
      else do
        let parts ← args.mapM (generateType context fuel)
        pure ("<" ++ String.intercalate ", " parts ++ ">")
    if defn.kind = .builtin then
      if args.length = 0 then
        pure ((BUILTIN_TS_TYPE defn.name).getD "undefined")
      else if defn.name = "Nullable" then do
        match args with
        | a :: _ => pure ((← generateType context fuel a) ++ " | null")
        | [] => throw .typeError
      else
        pure (defn.name ++ typeArgs)
    else
      pure ((← fqTypeName context defn) ++ typeArgs)

/-! ### `type-node.ts` -/

/-- `BUILTIN_WIRE_TYPE` (a `Record` lookup; absent names give
`undefined`). -/
def BUILTIN_WIRE_TYPE : String → Option Nat := fun n =>
  if n = "int32" ∨ n = "int64" ∨ n = "uint32" ∨ n = "uint64" ∨
      n = "sint32" ∨ n = "sint64" ∨ n = "bool" then some 0
  else if n = "float" ∨ n = "fixed32" ∨ n = "sfixed32" then some 5
  else if n = "double" ∨ n = "fixed64" ∨ n = "sfixed64" then some 1
  else if n = "string" ∨ n = "bytes" ∨ n = "Date" then some 2
  else none

/-- `typeToGenNode` of `codegen/type-node.ts`.  Note the nested-array
test of the `Array` branch reads `sub.type === "array"`, while
`arrayNode` always wraps its result in a `len` node. -/
def typeToGenNode (context : CodeGenContext) :
    Nat → DeepReal → Except GenErr (GenNode × Option Nat)
  | 0, _ => throw .outOfFuel
  | fuel + 1, .mk defn args => do
    if defn.kind = .builtin then
      if args.length = 0 then
        if defn.name = "bool" then
          pure (BOOL_NODE, some 0)
        else if defn.name = "Date" then
          pure (DATE_NODE, some 2)
        else if defn.name = "any" then
          -- `addBuiltinImport(context, "Any")` only records an import.
          pure (subMessageNode (fqBuiltinName "Any") "", some 2)
        else
          pure (primitiveNode defn.name, BUILTIN_WIRE_TYPE defn.name)
      else if defn.name = "Array" then do
        match args with
        | a :: _ => do
          let sub := (← typeToGenNode context fuel a).1
          if sub.typeTag = "array" ∧ context.strategy = .native then
            pure (arrayNode
              (structNode .noInit
                [fieldNode 1 .identity (some 2, arrayNode sub) none]),
              some 2)
          else
            pure (arrayNode sub, some 2)
        | [] => throw .typeError
      else if defn.name = "Map" then do
        match args with
        | k :: v :: _ => do
          let key ← typeToGenNode context fuel k
          let value ← typeToGenNode context fuel v
          pure (mapNode (key.2, key.1) (value.2, value.1), some 2)
        | _ => throw .typeError
      else if defn.name = "Nullable" then do
        match args with
        | a :: _ => do
          let sub ← typeToGenNode context fuel a
          if context.strategy = .native then
            pure (structNode .setNull
              [fieldNode 1 .identity (sub.2, sub.1) (some .notNull)],
              some 2)
          else
            pure (nullableNode sub.1, some 2)
        | [] => throw .typeError
      else
        throw (.thrown
          ("Generation failed due to missing implementation for type " ++
            defn.name))
    else if defn.kind = .enumK then
      pure (mapValueNode (some .asNumber) none (primitiveNode "uint32"), some 0)
    else if defn.kind = .stringEnumK then
      pure (primitiveNode "string", some 2)
    else do
      let generics ← args.mapM (generateType context fuel)
      pure (subMessageNode (← fqTypeName context defn)
        (String.intercalate ", " generics), some 2)

/-! ## `DiagnosticCollection` (`diagnostic.ts`)

The language-server-facing collection tags each diagnostic with a
`local`/`global` scope; `removeFileDiagnostics` is the per-file
invalidation used on document changes. -/

inductive DiagScope where
  | localScope
  | globalScope
deriving DecidableEq, Repr

/-- A stored diagnostic (`severity` is always `"error"` and is not
modelled as data). -/
structure Diagnostic where
  token : DocumentItem
  scope : DiagScope
  message : String
deriving DecidableEq, Repr

/-- `DiagnosticCollection.removeFileDiagnostics`:
`items.filter((i) => i.token.file !== file && i.scope === "local")`. -/
def removeFileDiagnostics (items : List Diagnostic) (file : String) :
    List Diagnostic :=
  items.filter fun i => i.token.file ≠ file ∧ i.scope = .localScope

/-! ## Fixtures used by the theorems -/

/-- A token at a fixed position (positions do not influence any of the
behaviours under test). -/
def tk (d : TokenData) : Token :=
  { file := "t", range := { start := ⟨0, 0⟩, «end» := ⟨0, 0⟩ }, data := d }

def idT (s : String) : Token := tk (.identifier s)

def dotT : Token := tk (.symbol ".")

/-- A complete `TypeNode` from dotted segments and argument nodes. -/
def tyN (segs : List String) (args : List TypeNode) : TypeNode :=
  typeNode
    (identifierNode
      (segs.foldl
        (fun acc s => if acc.isEmpty then [idT s] else acc ++ [dotT, idT s])
        []) none)
    args

/-- A blank definition record to fill per fixture. -/
def emptyDef : Definition :=
  { kind := .message, packageId := .user "?", name := "?", file := "?",
    argNames := [], enumFields := [], stringEnumFields := [],
    msgFieldNodes := [], rpcNodes := [] }

/-- `message Fruit` in package `a` (file `a.eproto`). -/
def aFruitDef : Definition :=
  { emptyDef with packageId := .user "a", name := "Fruit", file := "a.eproto" }

/-- `message Box` in package `b` (file `b.eproto`); the resolution under
test happens while analyzing its field. -/
def bBoxDef : Definition :=
  { emptyDef with packageId := .user "b", name := "Box", file := "b.eproto" }

def freshASt : ASt := { nextOid := 0, diags := [], instStore := [] }

/-- `message Pagination<T>` in package `p`. -/
def paginationDef : Definition :=
  { emptyDef with packageId := .user "p", name := "Pagination",
                  argNames := ["T"] }

/-- `rpc test(Pagination<int32>) returns (Pagination<int32>);` -/
def testRpcNode : RPCNode :=
  rpcNode (some (tk (.keyword "rpc"))) (some (idT "test"))
    (some (tyN ["Pagination"] [tyN ["int32"] []])) none
    (some (tk (.keyword "returns")))
    (some (tyN ["Pagination"] [tyN ["int32"] []])) none

/-- The service carrying `testRpcNode`, in package `p`. -/
def testServiceDef : Definition :=
  { emptyDef with kind := .service, packageId := .user "p", name := "S",
                  rpcNodes := [testRpcNode] }

def int32DR : DeepReal := .mk ⟨.builtin, .builtinPackage, "int32", ""⟩ []

def nullableDR (u : DeepReal) : DeepReal :=
  .mk ⟨.builtin, .builtinPackage, "Nullable", ""⟩ [u]

def arrayDR (u : DeepReal) : DeepReal :=
  .mk ⟨.builtin, .builtinPackage, "Array", ""⟩ [u]

def evolvedCtx : CodeGenContext :=
  { strategy := .evolved, currentFile := "f", currentPackage := "p" }

def nativeCtx : CodeGenContext :=
  { strategy := .native, currentFile := "f", currentPackage := "p" }

/-! ## Claim-comparison definitions (C6)

`claimedOrdinalDiscipline` is written from the claim text, *not* from
the source, to be compared with the embedded `analyzeMessageFields`:
the effective ordinal is the counter `k`; an explicit `n < k` raises the
corresponding diagnostic; an explicit ordinal larger than `k` resets `k`
to it, so subsequent fields continue from the explicit value. -/

def claimedOrdinalDiscipline : List (Option Int) → Int → List Int × List String
  | [], _ => ([], [])
  | o :: rest, k =>
    match o with
    | some n =>
      if n < k then
        let (ords, errs) := claimedOrdinalDiscipline rest (k + 1)
        (k :: ords,
          (if n < 1 then "Message field numbers must be greater than 0."
           else "Message field numbers must be sequential.") :: errs)
      else
        let (ords, errs) := claimedOrdinalDiscipline rest (n + 1)
        (n :: ords, errs)
    | none =>
      let (ords, errs) := claimedOrdinalDiscipline rest (k + 1)
      (k :: ords, errs)

/-- The ordinal discipline the code actually implements (the amended
claim): the effective ordinal of every complete field is the counter
`k`, which always advances by exactly one; an explicit `n < k` raises
the corresponding diagnostic, and an explicit ordinal `n ≥ k` is
accepted silently but never adopted. -/
def amendedOrdinalDiscipline : List (Option Int) → Int → List Int × List String
  | [], _ => ([], [])
  | o :: rest, k =>
    let (ords, errs) := amendedOrdinalDiscipline rest (k + 1)
    (k :: ords,
      match o with
      | some n =>
        if n < k then
          (if n < 1 then "Message field numbers must be greater than 0."
           else "Message field numbers must be sequential.") :: errs
        else errs
      | none => errs)

/-- A complete `int32 x;` or `int32 x = n;` field node. -/
def ordField (o : Option Int) : MessageFieldNode :=
  messageFieldNode none (some (tyN ["int32"] [])) (some (idT "x"))
    (o.map fun n => (tk (.symbol "="), some (tk (.numericLiteral n))))

/-- A message in package `p` whose fields carry the given explicit
ordinals. -/
def ordMessageDef (specs : List (Option Int)) : Definition :=
  { emptyDef with packageId := .user "p", name := "M",
                  msgFieldNodes := specs.map ordField }

/-- The message-field ordinal lists of a compiled file. -/
def msgOrdinals (r : CompileResult) : List (List Int) :=
  r.results.filterMap fun res =>
    match res with
    | .msg fields => some (fields.map MsgField.ordinal)
    | _ => none

/-! ### C6, amended general statement -/

/-- The `MsgField` records `analyzeMessageFields` produces for the
ordinal fixture: the `i`-th complete field gets ordinal `k + i` and a
freshly allocated `int32` instance. -/
def ordFieldsOut : List (Option Int) → Int → Nat → List MsgField
  | [], _, _ => []
  | _ :: rest, k, oid =>
    { name := "x", ordinal := k, optional := false,
      type := .real oid .builtin .builtinPackage "int32" [] } ::
      ordFieldsOut rest (k + 1) (oid + 1)

/-- The ordinal diagnostics raised on the ordinal fixture. -/
def ordDiagsOut : List (Option Int) → Int → List ADiag
  | [], _ => []
  | o :: rest, k =>
    (match o with
     | some n =>
       if n < k then
         [{ item := (tk (.numericLiteral n)).toItem,
            message :=
              if n < 1 then "Message field numbers must be greater than 0."
              else "Message field numbers must be sequential." }]
       else []
     | none => []) ++ ordDiagsOut rest (k + 1)

/-! ## Theorems -/

/-- C7: the tokenizer does *not* let a backslash protect the following
quote: scanning `"a\"b"` ends the string literal at the quote right
after the backslash, producing a `"a\"` literal, an identifier `b` and
an empty trailing literal instead of one literal covering the whole
text (and no diagnostics). -/
theorem takeUntilQuote_escape_lost :
    (tokenize "f" "\"a\\\"b\"").1.map Token.data =
      [.stringLiteral "a\\", .identifier "b", .stringLiteral "", .eof] ∧
    (tokenize "f" "\"a\\\"b\"").2 = [] := by
  constructor <;> rfl

/-- C8: analyzing `package demo; enum TestEnum { A = 0, B = 4, C = 4 }`
produces exactly one enum definition with fields `(A,0), (B,4), (C,4)`
and raises no diagnostics anywhere in the pipeline. -/
theorem enum_explicit_value_reuse :
    ((compileFile "f" "package demo; enum TestEnum \x7b A = 0, B = 4, C = 4 \x7d").map
      fun r =>
        (r.definitions.map fun d => (d.kind, d.packageId, d.name, d.enumFields),
         r.tokenizeDiags, r.parseDiags, r.finalState.diags)) =
      .ok ([(.enum, .user "demo", "TestEnum", [("A", 0), ("B", 4), ("C", 4)])],
        [], [], []) := by
  rfl

/-- C9: `removeFileDiagnostics f` keeps exactly the stored diagnostics
that are `local` and attached to a file other than `f`; every diagnostic
of `f` and every `global` diagnostic is removed, and `local` diagnostics
of other files survive. -/
theorem removeFileDiagnostics_keeps_other_local
    (items : List Diagnostic) (file : String) (d : Diagnostic) :
    d ∈ removeFileDiagnostics items file ↔
      d ∈ items ∧ d.scope = .localScope ∧ d.token.file ≠ file := by
  simp [removeFileDiagnostics, List.mem_filter, and_comm, and_left_comm]

/-- C10: `parse` has no result on the token stream of `message M {`
(keyword, identifier, brace, EOF): the message-body loop makes no
progress at EOF and `Parser.step` hits its step-over-EOF fatal exit. -/
theorem parse_unclosed_message_fatal :
    parse (tokenize "f" "message M \x7b").1 = .error .eofStep := by
  rfl

/-- C1: `resolveType` never returns the direct `packageId = prefix`
match: with `a.Fruit` defined and the reference resolved from package
`b`, the direct match exists, yet the broken `?? … ? … : …` precedence
uses it only as the branch condition and returns the (failing) relative
`b.a` lookup, emitting `Unknown type "a.Fruit"`. -/
theorem resolveType_direct_match_discarded :
    ((resolveType [aFruitDef, bBoxDef] bBoxDef 100
        (tyN ["a", "Fruit"] [])).run freshASt).map
        (fun r => (r.1, r.2.diags.map ADiag.message)) =
      .ok (none, ["Unknown type \"a.Fruit\""]) ∧
    ((([aFruitDef, bBoxDef].filter fun d => d.kind ≠ .service).find? fun d =>
        d.name = "Fruit" ∧ d.packageId = .user "a").map fun d =>
          (d.name, d.packageId)) = some ("Fruit", .user "a") := by
  constructor <;> rfl

/-- C2: resolving the request and response of a single
`rpc test(Pagination<int32>) returns (Pagination<int32>)` records *two*
argument tuples in the `genericInstances` of `Pagination`, and the two tuples
are structurally equal: the `===` element comparison in
`addGenericMessageInstances` never matches the freshly allocated
instances, so the set contains duplicates under structural equality. -/
theorem genericInstances_structural_duplicate :
    (((analyzeServiceRPCs [paginationDef, testServiceDef]
        testServiceDef).run freshASt).map fun r => r.2.instStore) =
      .ok [((.user "p", "Pagination"),
        [[.real 1 .builtin .builtinPackage "int32" []],
         [.real 3 .builtin .builtinPackage "int32" []]])] ∧
    structEqList [.real 1 .builtin .builtinPackage "int32" []]
      [.real 3 .builtin .builtinPackage "int32" []] = true := by
  constructor <;> rfl

/-- C4: the writer template of `BOOL_NODE` evaluates `value ? 1 : 0` on the
value *expression string* at generation time, so the emitted line is the
constant `writer.uint32(1);` for any (non-empty) value expression — not
the runtime conditional the specification describes — while the reader
line is the expected `value = !!reader.uint32();`. -/
theorem bool_node_writer_constant :
    serializeGenNode 1 BOOL_NODE "value.flag" = ["writer.uint32(1);"] ∧
    serializeGenNode 1 BOOL_NODE "value[i]" = ["writer.uint32(1);"] ∧
    (["writer.uint32(1);"] : List String) ≠
      ["writer.uint32(value.flag ? 1 : 0);"] ∧
    deserializeGenNode 1 BOOL_NODE "value.flag" =
      ["value.flag = !!reader.uint32();"] := by
  refine ⟨rfl, rfl, ?_, rfl⟩
  decide

/-- C5: under strategy `native` the nested-array wrapper branch of
`typeToGenNode` is dead: `arrayNode` always returns a `len` node, so the
`sub.type === "array"` test fails and `Array<Array<int32>>` produces
`Len(Array(Len(Array(int32))))` with no one-field wrapper struct —
exactly the same GenIR as under `evolved`. -/
theorem nested_array_native_unwrapped :
    typeToGenNode nativeCtx 10 (arrayDR (arrayDR int32DR)) =
      .ok (lenNode (.array (lenNode (.array (primitiveNode "int32")))),
        some 2) ∧
    typeToGenNode evolvedCtx 10 (arrayDR (arrayDR int32DR)) =
      .ok (lenNode (.array (lenNode (.array (primitiveNode "int32")))),
        some 2) ∧
    (arrayNode (primitiveNode "int32")).typeTag = "len" := by
  refine ⟨rfl, rfl, rfl⟩

/-- C3 counterexample: under strategy `evolved`, `Nullable<int32>`
produces a bare `nullable` node (`typeTag` is `"nullable"`, not
`"len"`), and the emitted serializer contains no `writer.fork();`
framing, refuting the claimed `Len(Nullable(sub))` shape. -/
theorem nullable_evolved_unframed_counterexample :
    (typeToGenNode evolvedCtx 10 (nullableDR int32DR)).map
        (fun p => (p.1.typeTag, p.2)) = .ok ("nullable", some 2) ∧
    ("nullable" : String) ≠ "len" ∧
    (typeToGenNode evolvedCtx 10 (nullableDR int32DR)).map
        (fun p => (serializeGenNode 20 p.1 "value").contains "writer.fork();") =
      .ok false := by
  refine ⟨rfl, by decide, rfl⟩

/-- C3 amended: under strategy `evolved`, for every deeply-real
`Nullable<U>` whose argument generates `sub`, the GenIR is
`Nullable(sub)` with wire type 2 and *no* length-delimited framing: the
serializer emits the one-byte 0/1 discriminant and then the encoding of `U`
guarded by the null test, with no `writer.fork()`/`writer.ldelim()`. -/
theorem nullable_evolved_amended (fuel : Nat) (u : DeepReal)
    (sub : GenNode) (w : Option Nat)
    (h : typeToGenNode evolvedCtx fuel u = .ok (sub, w)) :
    typeToGenNode evolvedCtx (fuel + 1) (nullableDR u) =
      .ok (nullableNode sub, some 2) ∧
    ∀ value fuelS, serializeGenNode (fuelS + 1) (nullableNode sub) value =
      ["writer.uint32(" ++ value ++ " === null ? 0 : 1);",
       "if (" ++ value ++ " !== null) \x7b"] ++
        indent2 (serializeGenNode fuelS sub value) ++ ["\x7d"] := by
  constructor
  · have h2 : typeToGenNode ⟨Strategy.evolved, "f", "p"⟩ fuel u =
        Except.ok (sub, w) := h
    simp [typeToGenNode, nullableDR, h2, bind, Except.bind, evolvedCtx]
    rfl
  · intro value fuelS
    rfl

/-- Witness for `nullable_evolved_amended` at `U = int32`. -/
theorem nullable_evolved_amended_witness :
    typeToGenNode evolvedCtx 10 int32DR = .ok (primitiveNode "int32", some 0) ∧
    typeToGenNode evolvedCtx 11 (nullableDR int32DR) =
      .ok (nullableNode (primitiveNode "int32"), some 2) := by
  refine ⟨rfl, ?_⟩
  exact (nullable_evolved_amended 10 int32DR (primitiveNode "int32") (some 0)
    rfl).1

/-- C6 counterexample: in
`package p; message M { int32 a = 5; int32 b; }`, the code assigns the
effective ordinals `[1, 2]` with no diagnostics, while the claimed
discipline (explicit larger ordinal resets the counter) predicts
`[5, 6]`. -/
theorem ordinal_reset_counterexample :
    ((compileFile "f" "package p; message M \x7b int32 a = 5; int32 b; \x7d").map
      fun r => (msgOrdinals r, r.tokenizeDiags, r.parseDiags,
        r.finalState.diags)) = .ok ([[1, 2]], [], [], []) ∧
    claimedOrdinalDiscipline [some 5, none] 1 = ([5, 6], []) ∧
    ([1, 2] : List Int) ≠ [5, 6] := by
  refine ⟨rfl, rfl, by decide⟩

theorem resolveInt32_run (specs0 : List (Option Int)) (st : ASt) :
    (resolveType [] (ordMessageDef specs0) 1000 (tyN ["int32"] [])).run st =
      .ok (some (.real st.nextOid .builtin .builtinPackage "int32" []),
        { st with nextOid := st.nextOid + 1 }) := by
  rfl

theorem ord_go_cons (specs0 rest : List (Option Int)) (o : Option Int)
    (k : Int) (acc : List MsgField) (st : ASt) :
    (analyzeMessageFields.go [] (ordMessageDef specs0)
        (List.map ordField (o :: rest)) k acc).run st =
      (analyzeMessageFields.go [] (ordMessageDef specs0)
        (List.map ordField rest) (k + 1)
        (acc ++ [⟨"x", k, false,
          .real st.nextOid .builtin .builtinPackage "int32" []⟩])).run
        { st with
          nextOid := st.nextOid + 1
          diags := st.diags ++ ordDiagsOut [o] k } := by
  cases o with
  | none =>
    show _ = (analyzeMessageFields.go [] (ordMessageDef specs0)
      (List.map ordField rest) (k + 1)
      (acc ++ [⟨"x", k, false,
        .real st.nextOid .builtin .builtinPackage "int32" []⟩])).run
      { st with
        nextOid := st.nextOid + 1
        diags := st.diags ++ [] }
    rw [List.append_nil]
    rfl
  | some n =>
    have hval : (analyzeMessageFields.go [] (ordMessageDef specs0)
        (List.map ordField (some n :: rest)) k acc) =
        (fun m => if n < k then
            (do
              aDiag (tk (.numericLiteral n)).toItem
                (if n < 1 then "Message field numbers must be greater than 0."
                 else "Message field numbers must be sequential.")
              m)
          else m)
          (do
            let type ← resolveType [] (ordMessageDef specs0) 1000
              (tyN ["int32"] [])
            analyzeMessageFields.go [] (ordMessageDef specs0)
              (List.map ordField rest) (k + 1)
              (match type with
               | some ty => acc ++ [⟨"x", k, false, ty⟩]
               | none => acc)) := rfl
    by_cases hn : n < k
    · rw [hval]
      simp only [if_pos hn, ordDiagsOut, List.append_nil]
      rfl
    · rw [hval]
      simp only [if_neg hn, ordDiagsOut, List.append_nil]
      rfl

theorem ordDiagsOut_cons (o : Option Int) (rest : List (Option Int))
    (k : Int) :
    ordDiagsOut (o :: rest) k = ordDiagsOut [o] k ++ ordDiagsOut rest (k + 1) := by
  cases o <;> simp [ordDiagsOut]

set_option maxRecDepth 4000 in
theorem ord_go_run (specs0 : List (Option Int)) :
    ∀ (specs : List (Option Int)) (k : Int) (acc : List MsgField) (st : ASt),
    (analyzeMessageFields.go [] (ordMessageDef specs0) (specs.map ordField)
        k acc).run st =
      .ok (acc ++ ordFieldsOut specs k st.nextOid,
        { st with
          nextOid := st.nextOid + specs.length
          diags := st.diags ++ ordDiagsOut specs k
          instStore := st.instStore }) := by
  intro specs
  induction specs with
  | nil =>
    intro k acc st
    simp [analyzeMessageFields.go, ordFieldsOut, ordDiagsOut, StateT.run,
      pure, StateT.pure, Except.pure]
  | cons o rest ih =>
    intro k acc st
    rw [ord_go_cons, ih]
    have hd : ordDiagsOut (o :: rest) k =
        ordDiagsOut [o] k ++ ordDiagsOut rest (k + 1) := by
      cases o <;> simp [ordDiagsOut]
    rw [hd]
    simp only [ordFieldsOut, List.length_cons, List.append_assoc,
      List.singleton_append]
    rw [show st.nextOid + 1 + rest.length = st.nextOid + (rest.length + 1) from
      by omega]

theorem ordFieldsOut_ordinals (specs : List (Option Int)) :
    ∀ (k : Int) (oid : Nat),
    (ordFieldsOut specs k oid).map MsgField.ordinal =
      (amendedOrdinalDiscipline specs k).1 := by
  induction specs with
  | nil => intro k oid; rfl
  | cons o rest ih =>
    intro k oid
    simp [ordFieldsOut, amendedOrdinalDiscipline, ih]

theorem ordDiagsOut_messages (specs : List (Option Int)) :
    ∀ k : Int, (ordDiagsOut specs k).map ADiag.message =
      (amendedOrdinalDiscipline specs k).2 := by
  induction specs with
  | nil => intro k; rfl
  | cons o rest ih =>
    intro k
    cases o with
    | none => simp [ordDiagsOut, amendedOrdinalDiscipline, ih]
    | some n =>
      by_cases hn : n < k <;>
        simp [ordDiagsOut, amendedOrdinalDiscipline, hn, ih]

/-- C6 amended: for every pattern of explicit field ordinals, the
analyzer assigns the running counter `k` (starting at 1, advancing by
one per complete field) as the effective ordinal of *every* field, and
raises the non-positive/non-sequential diagnostic exactly for the
explicit ordinals `n < k`; an explicit ordinal larger than `k` is
accepted silently and does not reset the counter. -/
theorem ordinal_counter_no_reset (specs : List (Option Int)) :
    ((analyzeMessageFields [] (ordMessageDef specs)).run freshASt).map
        (fun r => (r.1.map MsgField.ordinal, r.2.diags.map ADiag.message)) =
      .ok (amendedOrdinalDiscipline specs 1) := by
  have h := ord_go_run specs specs 1 [] freshASt
  have hh : (analyzeMessageFields [] (ordMessageDef specs)).run freshASt =
      .ok (ordFieldsOut specs 1 0,
        { nextOid := 0 + specs.length
          diags := ordDiagsOut specs 1
          instStore := [] }) := by
    rw [show (analyzeMessageFields [] (ordMessageDef specs)).run freshASt =
        (analyzeMessageFields.go [] (ordMessageDef specs)
          (specs.map ordField) 1 []).run freshASt from rfl, h]
    rfl
  rw [hh]
  simp [Except.map, ordFieldsOut_ordinals, ordDiagsOut_messages]

end Eproto
